import Mathlib

/-!
Verification of the NarrativeSparring analysis pipeline.

Shallow embedding of the core modules:
  * `src/api/utils/claude-client.js` — report generation with retry/backoff
    and token-cost accounting (costs modelled with exact rationals);
  * the file text-extraction module (`extractTextFromFiles` and the per-format
    extractors), with the external binary parsers (pdf-parse, mammoth,
    node-html-parser) represented as oracles attached to each file buffer;
  * `src/api/analyze.js` — the pipeline orchestrator, modelled as a pure
    function from an environment (the outcomes of all external calls) to the
    HTTP response, the trace of external events, and the final state of the
    `analyses` table.

Definitions come first, theorems at the end of the file.
-/

namespace NarrativeSparring

/-! ## Claude client (`src/api/utils/claude-client.js`) -/

/-- An error raised by the model service: HTTP-like status, network code,
message — the shape inspected by `isRetryableError` and `formatError`. -/
structure ApiError where
  status : Option Nat
  code : Option String
  message : String
deriving DecidableEq

/-- A successful model response: report text plus the usage counts returned
by the service (`response.usage.input_tokens` / `output_tokens`). -/
structure ApiOk where
  text : String
  inputTokens : Nat
  outputTokens : Nat
deriving DecidableEq

/-- `PRICING.INPUT_PER_MILLION` — dollars per million input tokens. -/
def INPUT_PER_MILLION : ℚ := 3

/-- `PRICING.OUTPUT_PER_MILLION` — dollars per million output tokens. -/
def OUTPUT_PER_MILLION : ℚ := 15

/-- The `tokensUsed` component of a successful generation result. -/
structure TokensUsed where
  input : Nat
  output : Nat
  total : Nat
deriving DecidableEq

/-- The `costUSD` component of a successful generation result. -/
structure CostUSD where
  input : ℚ
  output : ℚ
  total : ℚ
deriving DecidableEq

/-- The value returned by `generateNarrativeReport`: either
`{success:true, report, tokensUsed, costUSD}` or
`{success:false, error, errorCode}` (absent fields are `none`). -/
structure GenResult where
  success : Bool
  report : Option String
  tokensUsed : Option TokensUsed
  costUSD : Option CostUSD
  error : Option String
  errorCode : Option String
deriving DecidableEq

/-- `isRetryableError`: retry on status 429 or 529 and on the network codes
ECONNRESET and ETIMEDOUT; everything else is non-retryable. -/
def isRetryableError (e : ApiError) : Bool :=
  e.status == some 429 || e.status == some 529 ||
  e.code == some "ECONNRESET" || e.code == some "ETIMEDOUT"

/-- `formatError`: human-readable classification of the final error. -/
def formatError (e : ApiError) : String :=
  if e.status == some 401 then "Authentication failed - invalid API key"
  else if e.status == some 429 then "Rate limit exceeded - too many requests"
  else if e.status == some 529 then "API overloaded - service temporarily unavailable"
  else if e.status == some 400 then "Invalid request: " ++ e.message
  else if e.message == "" then "Unknown error occurred"
  else e.message

/-- The `errorCode` field: `lastError?.status || lastError?.code || UNKNOWN`
(a numeric status is rendered as its decimal string). -/
def errorCodeOf (e : ApiError) : String :=
  match e.status with
  | some s => toString s
  | none =>
    match e.code with
    | some c => c
    | none => "UNKNOWN"

/-- `RETRY_DELAYS = [2000, 5000, 10000]` — ms waited after attempt i fails. -/
def RETRY_DELAYS : List Nat := [2000, 5000, 10000]

/-- `MAX_RETRIES = 3` — total number of attempts. -/
def MAX_RETRIES : Nat := 3

/-- The success return value: token totals and the cost computed from the
static price table applied to the actual usage. -/
def mkSuccess (r : ApiOk) : GenResult :=
  let inputCost : ℚ := (r.inputTokens : ℚ) / 1000000 * INPUT_PER_MILLION
  let outputCost : ℚ := (r.outputTokens : ℚ) / 1000000 * OUTPUT_PER_MILLION
  { success := true
    report := some r.text
    tokensUsed := some ⟨r.inputTokens, r.outputTokens, r.inputTokens + r.outputTokens⟩
    costUSD := some ⟨inputCost, outputCost, inputCost + outputCost⟩
    error := none
    errorCode := none }

/-- The failure return value built from the last error seen. -/
def mkFailure (e : ApiError) : GenResult :=
  { success := false
    report := none
    tokensUsed := none
    costUSD := none
    error := some (formatError e)
    errorCode := some (errorCodeOf e) }

/-- Result of running the retry loop: final value, number of attempts made,
and the list of backoff sleeps actually awaited (in order). -/
structure GenTrace where
  result : GenResult
  attemptsMade : Nat
  sleeps : List Nat
deriving DecidableEq

/-- The retry loop of `generateNarrativeReport`. `call n` is the outcome the
model service gives to attempt `n` (an oracle for the external call); `fuel`
is the number of attempts still allowed, so the loop exit condition
`attempt === MAX_RETRIES - 1` is `fuel = 1`. -/
def genAttempts (call : Nat → Except ApiError ApiOk) (attempt fuel : Nat) : GenTrace :=
  match fuel with
  | 0 => ⟨⟨false, none, none, none, some "Unknown error occurred", some "UNKNOWN"⟩, 0, []⟩
  | f + 1 =>
    match call attempt with
    | .ok r => ⟨mkSuccess r, 1, []⟩
    | .error e =>
      if isRetryableError e = false ∨ f = 0 then ⟨mkFailure e, 1, []⟩
      else
        let rest := genAttempts call (attempt + 1) f
        ⟨rest.result, rest.attemptsMade + 1, RETRY_DELAYS.getD attempt 0 :: rest.sleeps⟩

/-- `generateNarrativeReport` — up to `MAX_RETRIES` attempts starting at 0. -/
def generateNarrativeReport (call : Nat → Except ApiError ApiOk) : GenTrace :=
  genAttempts call 0 MAX_RETRIES

/-- The shared price formula: `input/1e6 * 3.00 + output/1e6 * 15.00`. -/
def tokenPrice (input output : Nat) : ℚ :=
  (input : ℚ) / 1000000 * INPUT_PER_MILLION +
  (output : ℚ) / 1000000 * OUTPUT_PER_MILLION

/-- The value returned by `estimateCost`. -/
structure CostEstimate where
  estimatedInputTokens : Nat
  estimatedOutputTokens : Nat
  estimatedCostUSD : ℚ
deriving DecidableEq

/-- `estimateCost(textLength, estimatedOutputTokens)` — the input token count
is `Math.ceil(textLength / 4)`, which over naturals is `(textLength + 3) / 4`;
the cost uses the same `PRICING` table as the generation path. The source
default for `estimatedOutputTokens` is 16000. -/
def estimateCost (textLength estimatedOutputTokens : Nat) : CostEstimate :=
  let estimatedInputTokens := (textLength + 3) / 4
  let inputCost : ℚ := (estimatedInputTokens : ℚ) / 1000000 * INPUT_PER_MILLION
  let outputCost : ℚ := (estimatedOutputTokens : ℚ) / 1000000 * OUTPUT_PER_MILLION
  ⟨estimatedInputTokens, estimatedOutputTokens, inputCost + outputCost⟩

/-- Concrete attempt oracle: rate-limited twice, then success. -/
def callsRetryThenOk : Nat → Except ApiError ApiOk :=
  fun n => if n < 2 then .error ⟨some 429, none, "rate limited"⟩
           else .ok ⟨"the report", 12000, 14000⟩

/-- Concrete attempt oracle: authentication failure immediately. -/
def callsAuthFail : Nat → Except ApiError ApiOk :=
  fun _ => .error ⟨some 401, none, "invalid api key"⟩

/-! ## File text extraction (file-extractor module, source in src/README.md) -/

/-- A DOM node as produced by node-html-parser: a text node or an element
with a tag and children (the HTML parse itself is an external oracle). -/
inductive HNode where
  | text (s : String)
  | elem (tag : String) (children : List HNode)

/-- An uploaded file buffer. The raw bytes are abstracted by what each
external decoder would produce from them: the UTF-8 decoding
(`buffer.toString`), the outcome of pdf-parse (`data.text`, or the thrown
message), the outcome of mammoth raw-text extraction (`result.value`, or
the thrown message), and the DOM that node-html-parser builds from the
UTF-8 text. -/
structure FileBuffer where
  utf8 : String
  pdfParsed : Except String String
  mammothRaw : Except String String
  htmlDom : HNode

/-- One entry of the array handed to `extractTextFromFiles`. -/
structure HFile where
  filename : String
  buffer : FileBuffer

/-- `path.extname` restricted to forward-slash paths: the extension of the
basename starting at its last dot; empty when the basename has no dot after
position 0. -/
def extname (filename : String) : String :=
  let base := (filename.toList.reverse.takeWhile (fun c => !(c == '/'))).reverse
  let suf := base.reverse.takeWhile (fun c => !(c == '.'))
  if suf.length = base.length then ""
  else if base.length = suf.length + 1 then ""
  else String.mk (base.drop (base.length - suf.length - 1))

/-- The JavaScript whitespace class `\s`, restricted to its ASCII members. -/
def jsWs (c : Char) : Bool :=
  c == ' ' || c == '\t' || c == '\n' || c == '\r' || c == '\x0b' || c == '\x0c'

/-- `String.prototype.toLowerCase` (per character). -/
def jsToLower (s : String) : String :=
  String.mk (s.toList.map Char.toLower)

/-- Per-file extraction outcome: `{success:true, text}` or
`{success:false, error}`. -/
inductive ExtractResult where
  | ok (text : String)
  | err (msg : String)
deriving DecidableEq

/-- The global regex replace of every whitespace run by a single space. -/
def collapseWs : List Char → List Char
  | [] => []
  | [c] => if jsWs c then [' '] else [c]
  | c :: d :: rest =>
    if jsWs c && jsWs d then collapseWs (d :: rest)
    else if jsWs c then ' ' :: collapseWs (d :: rest)
    else c :: collapseWs (d :: rest)

/-- Index of the last newline inside a run of whitespace, used to model the
greedy match of the regex newline-whitespace-newline. -/
def lastNlIdx (l : List Char) : Option Nat :=
  (((List.range l.length).filter (fun i => l.getD i ' ' == '\n'))).getLast?

/-- The global regex replace of newline, whitespace run, newline by exactly
two newlines (the blank-line collapse). -/
def collapseBlank : List Char → List Char
  | [] => []
  | c :: rest =>
    if c == '\n' then
      match lastNlIdx (rest.takeWhile jsWs) with
      | none => c :: collapseBlank rest
      | some k => '\n' :: '\n' :: collapseBlank (rest.drop (k + 1))
    else c :: collapseBlank rest
termination_by l => l.length
decreasing_by
  all_goals simp
  all_goals omega

/-- Removal of trailing whitespace; the result is a front segment of the
input list. -/
def dropTrailing : List Char → List Char
  | [] => []
  | c :: rest =>
    let r := dropTrailing rest
    if r.isEmpty && jsWs c then [] else c :: r

/-- `String.prototype.trim` over the modelled whitespace class. -/
def jsTrim (s : String) : String :=
  String.mk (dropTrailing (s.toList.dropWhile jsWs))

/-- The cleanup applied by the HTML extractor: collapse whitespace runs to a
single space, collapse blank-line runs, trim. -/
def cleanupText (s : String) : String :=
  jsTrim (String.mk (collapseBlank (collapseWs s.toList)))

mutual

/-- `textContent` of a DOM node: concatenation of all text nodes. -/
def textContent : HNode → String
  | .text s => s
  | .elem _ cs => textContentList cs

/-- `textContent` over a child list. -/
def textContentList : List HNode → String
  | [] => ""
  | n :: ns => textContent n ++ textContentList ns

end

mutual

/-- Removal of every script and style element
(`querySelectorAll + remove`). -/
def stripScriptStyle : HNode → HNode
  | .text s => .text s
  | .elem tag cs => .elem tag (stripList cs)

/-- Removal over a child list: script and style subtrees are dropped whole,
other elements are cleaned recursively. -/
def stripList : List HNode → List HNode
  | [] => []
  | .text s :: ns => .text s :: stripList ns
  | .elem tag cs :: ns =>
    if tag == "script" || tag == "style" then stripList ns
    else .elem tag (stripList cs) :: stripList ns

end

/-- `extractFromPDF`: pdf-parse output, a parser exception becomes a
per-file error value. -/
def extractFromPDF (buffer : FileBuffer) : ExtractResult :=
  match buffer.pdfParsed with
  | .ok t => .ok t
  | .error m => .err ("PDF extraction error: " ++ m)

/-- `extractFromDOCX`: mammoth raw text, an exception becomes a per-file
error value. -/
def extractFromDOCX (buffer : FileBuffer) : ExtractResult :=
  match buffer.mammothRaw with
  | .ok t => .ok t
  | .error m => .err ("DOCX extraction error: " ++ m)

/-- `extractFromPPTX`: mammoth raw text; when mammoth throws, a placeholder
text is returned as a SUCCESS (degraded success, not an error). -/
def extractFromPPTX (buffer : FileBuffer) : ExtractResult :=
  match buffer.mammothRaw with
  | .ok t => .ok t
  | .error _ => .ok "[PPTX content - text extraction limited]"

/-- Text produced by the HTML extractor from a parsed DOM. -/
def htmlExtractText (root : HNode) : String :=
  cleanupText (textContent (stripScriptStyle root))

/-- `extractFromHTML`: parse (oracle), strip script and style, take the text
content, clean up whitespace. -/
def extractFromHTML (buffer : FileBuffer) : ExtractResult :=
  .ok (htmlExtractText buffer.htmlDom)

/-- `extractFromTXT`: UTF-8 decode and trim. -/
def extractFromTXT (buffer : FileBuffer) : ExtractResult :=
  .ok (jsTrim buffer.utf8)

/-- `extractTextFromFile`: dispatch on the lowercased filename extension. -/
def extractTextFromFile (file : HFile) : ExtractResult :=
  let extension := jsToLower (extname file.filename)
  if extension == ".pdf" then extractFromPDF file.buffer
  else if extension == ".docx" then extractFromDOCX file.buffer
  else if extension == ".pptx" then extractFromPPTX file.buffer
  else if extension == ".html" then extractFromHTML file.buffer
  else if extension == ".txt" || extension == ".md" || extension == ".markdown" then
    extractFromTXT file.buffer
  else
    .err ("Unsupported file type: " ++ extension)

/-- `getFileType`: display name of the format, from the extension. -/
def getFileType (filename : String) : String :=
  let ext := jsToLower (extname filename)
  if ext == ".pdf" then "PDF"
  else if ext == ".docx" then "DOCX"
  else if ext == ".pptx" then "PPTX"
  else if ext == ".html" then "HTML"
  else if ext == ".txt" then "TXT"
  else if ext == ".md" then "Markdown"
  else if ext == ".markdown" then "Markdown"
  else "Unknown"

/-- Word counting: number of maximal non-whitespace runs after trimming. -/
def countWordsAux : List Char → Bool → Nat
  | [], _ => 0
  | c :: rest, inWord =>
    if jsWs c then countWordsAux rest false
    else (if inWord then 0 else 1) + countWordsAux rest true

/-- `countWords`: trim, split on whitespace, count the nonempty pieces. -/
def countWords (text : String) : Nat :=
  countWordsAux (jsTrim text).toList false

/-- One entry of `fileStats`. -/
structure FileStat where
  filename : String
  type : String
  characterCount : Nat
  wordCount : Nat
deriving DecidableEq

/-- One entry of `errors`: the failing filename and its error message. -/
structure FileError where
  filename : String
  error : String
deriving DecidableEq

/-- The value returned by `extractTextFromFiles`. -/
structure ExtractionOut where
  success : Bool
  text : String
  fileStats : List FileStat
  errors : List FileError
  totalFiles : Nat
  successfulExtractions : Nat
deriving DecidableEq

/-- The per-file loop of `extractTextFromFiles`: accumulates, in input
order, the extracted `(filename, text)` pairs, the per-file stats, and the
per-file error entries. -/
def extractLoop : List HFile → List (String × String) × List FileStat × List FileError
  | [] => ([], [], [])
  | f :: rest =>
    match extractTextFromFile f with
    | .ok t =>
      ((f.filename, t) :: (extractLoop rest).1,
       ⟨f.filename, getFileType f.filename, t.length, countWords t⟩ :: (extractLoop rest).2.1,
       (extractLoop rest).2.2)
    | .err m =>
      ((extractLoop rest).1, (extractLoop rest).2.1, ⟨f.filename, m⟩ :: (extractLoop rest).2.2)

/-- The per-file banner put in front of each successfully extracted text. -/
def fileMarker (filename text : String) : String :=
  "\n\n=== FILE: " ++ filename ++ " ===\n\n" ++ text

/-- `Array.prototype.join` with separator blank line. -/
def joinBlank : List String → String
  | [] => ""
  | [x] => x
  | x :: y :: rest => x ++ "\n\n" ++ joinBlank (y :: rest)

/-- `extractTextFromFiles`: run the per-file loop, combine the successful
texts with file markers, and report `success = (successfulExtractions > 0)`. -/
def extractTextFromFiles (files : List HFile) : ExtractionOut :=
  let ts := (extractLoop files).1
  { success := decide (0 < ts.length)
    text := joinBlank (ts.map fun it => fileMarker it.1 it.2)
    fileStats := (extractLoop files).2.1
    errors := (extractLoop files).2.2
    totalFiles := files.length
    successfulExtractions := ts.length }

/-- Adjacent-whitespace freedom: no two consecutive whitespace characters. -/
def NoWsRun (s : String) : Prop :=
  List.Chain' (fun a b => ¬(jsWs a = true ∧ jsWs b = true)) s.toList

/-- A concrete buffer holding plain text. -/
def demoTxtBuffer : FileBuffer :=
  ⟨"hello world", .error "not a pdf", .error "not a zip", .text "x"⟩

/-- A concrete batch with one plain-text file. -/
def demoTxtBatch : List HFile :=
  [⟨"a.txt", demoTxtBuffer⟩]

/-- A concrete pptx file whose mammoth extraction throws. -/
def demoPptxFile : HFile :=
  ⟨"deck.pptx", ⟨"raw", .error "bad zip", .error "ENOENT something", .text "y"⟩⟩

/-! ## Pipeline orchestrator (`src/api/analyze.js`) -/

/-- A row of the users table (the columns the handler selects). -/
structure User where
  id : Nat
  email : String
  purchaseTier : String
deriving DecidableEq

/-- A row of the uploads table (the columns the handler selects, plus the
uploaded_at timestamp the query filters and orders by, in ms). -/
structure Upload where
  id : Nat
  userId : Nat
  filename : String
  filePath : String
  fileSize : Nat
  uploadedAt : Nat
deriving DecidableEq

/-- The status stored inside analysis_content. -/
inductive AStatus where
  | processing
  | completed
  | failed
deriving DecidableEq

/-- A row of the analyses table (the fields the handler writes). -/
structure ARecord where
  id : Nat
  userId : Nat
  analysisType : String
  status : AStatus
  sentToUser : Bool
deriving DecidableEq

/-- External calls the handler performs, in order. -/
inductive Ev where
  | queryUser
  | queryUploads
  | insertAnalysis (status : AStatus)
  | download (path : String)
  | modelCall
  | storageUpload (path : String)
  | updateAnalysis (status : AStatus)
  | reportEmail (ok : Bool)
  | errorEmail
deriving DecidableEq

/-- The JSON response of the handler. -/
inductive Resp where
  | methodNotAllowed
  | badRequest (msg : String)
  | notFound (msg : String)
  | serverError (msg : String)
  | ok (analysisId : Nat) (reportUrl : String) (processingTime : Nat)
       (filesProcessed : Nat) (tokensUsed : Nat) (costUSD : ℚ) (emailSent : Bool)
  | failed (message : String) (analysisId : Option Nat)
deriving DecidableEq

/-- The environment of one invocation: the request plus the outcome of every
external call the handler could make (database, object store, model service,
email service), each an oracle fixed before the run. -/
structure Env where
  isPost : Bool
  userId : Option Nat
  now : Nat
  elapsedMs : Nat
  users : List User
  uploadsRows : List Upload
  uploadsQueryFails : Bool
  insertFails : Bool
  newAnalysisId : Nat
  download : String → Except String FileBuffer
  modelCall : Nat → Except ApiError ApiOk
  storagePut : Except String String
  updateCompletedFails : Bool
  updateFailedFails : Bool
  reportEmailFails : Bool

/-- The lookback window of the uploads query: ten minutes in ms. -/
def LOOKBACK_MS : Nat := 10 * 60 * 1000

/-- The uploads query: rows of this user with uploaded_at in the last ten
minutes, ordered by uploaded_at ascending. -/
def selectUploads (rows : List Upload) (uid : Nat) (now : Nat) : List Upload :=
  List.insertionSort (fun a b => a.uploadedAt ≤ b.uploadedAt)
    (rows.filter (fun u => u.userId == uid && decide (now - LOOKBACK_MS ≤ u.uploadedAt)))

/-- The sequential download loop of step 4: fetch each upload in order; on
the first failure return the thrown message (the oracle string stands for
the HTTP status text) together with the paths attempted so far; on success
return the downloaded files and all fetched paths. -/
def downloadLoop (dl : String → Except String FileBuffer) :
    List Upload → Except (String × List String) (List HFile × List String)
  | [] => .ok ([], [])
  | u :: rest =>
    match dl u.filePath with
    | .error m =>
      .error ("Failed to download " ++ u.filename ++ ": " ++ m, [u.filePath])
    | .ok buf =>
      match downloadLoop dl rest with
      | .error (m, ps) => .error (m, u.filePath :: ps)
      | .ok (fs, ps) => .ok (⟨u.filename, buf⟩ :: fs, u.filePath :: ps)

/-- The result of one invocation: response, trace of external calls, final
contents of the analyses table (empty at the start of the run). -/
structure Outcome where
  resp : Resp
  events : List Ev
  analyses : List ARecord

/-- The catch branch of the handler: update the record to failed (if one was
created; a failing update leaves the row unchanged and is not checked),
best-effort error-notification email behind a fresh user lookup, and a
structured failure response. -/
def catchBranch (env : Env) (analysisId : Option Nat) (db : List ARecord)
    (evs : List Ev) (msg : String) : Outcome :=
  ⟨.failed msg analysisId,
   evs ++
   (match analysisId with
    | none => []
    | some _ => [Ev.updateAnalysis .failed]) ++
   (match env.userId with
    | none => []
    | some uid =>
      match env.users.find? (fun u => u.id == uid) with
      | some _ => [Ev.queryUser, Ev.errorEmail]
      | none => [Ev.queryUser]),
   match analysisId with
   | none => db
   | some aid =>
     if env.updateFailedFails then db
     else db.map (fun r =>
       if r.id = aid then { r with status := .failed, sentToUser := false } else r)⟩

/-- The AnalysisRecord inserted at step 3 (status processing). -/
def rec0 (env : Env) (uid : Nat) : ARecord :=
  ⟨env.newAnalysisId, uid, "full_report", .processing, false⟩

/-- The storage path of the rendered report. -/
def reportPathOf (env : Env) (uid : Nat) : String :=
  "reports/report-" ++ toString uid ++ "-" ++ toString env.now ++ ".html"

/-- Steps 7-11: render (pure), store the report, run the completed-update
(failure logged, not fatal), attempt the report email (failure logged, not
fatal), and return the success payload; a storage failure throws. -/
def step8Store (env : Env) (uid : Nat) (files : List HFile) (evs : List Ev) : Outcome :=
  match env.storagePut with
  | .error m =>
    catchBranch env (some env.newAnalysisId) [rec0 env uid]
      (evs ++ [Ev.storageUpload (reportPathOf env uid)])
      ("Report upload failed: " ++ m)
  | .ok reportUrl =>
    ⟨.ok env.newAnalysisId reportUrl ((env.elapsedMs + 500) / 1000)
        (extractTextFromFiles files).successfulExtractions
        (((generateNarrativeReport env.modelCall).result.tokensUsed.map
           TokensUsed.total).getD 0)
        (((generateNarrativeReport env.modelCall).result.costUSD.map
           CostUSD.total).getD 0)
        (!env.reportEmailFails),
     evs ++ [Ev.storageUpload (reportPathOf env uid),
             Ev.updateAnalysis .completed,
             Ev.reportEmail (!env.reportEmailFails)],
     if env.updateCompletedFails then [rec0 env uid]
     else [rec0 env uid].map (fun r =>
       if r.id = env.newAnalysisId then
         { r with status := .completed, sentToUser := true }
       else r)⟩

/-- Step 6: the model call with retries; a failure result throws. -/
def step6Generate (env : Env) (uid : Nat) (files : List HFile) (evs : List Ev) : Outcome :=
  if (generateNarrativeReport env.modelCall).result.success = false then
    catchBranch env (some env.newAnalysisId) [rec0 env uid]
      (evs ++ List.replicate (generateNarrativeReport env.modelCall).attemptsMade Ev.modelCall)
      ("Claude API error: " ++
       ((generateNarrativeReport env.modelCall).result.error.getD ""))
  else
    step8Store env uid files
      (evs ++ List.replicate (generateNarrativeReport env.modelCall).attemptsMade Ev.modelCall)

/-- Step 5: extraction over the downloaded files; no success, or an empty
combined text, throws. -/
def step5Extract (env : Env) (uid : Nat) (files : List HFile) (evs : List Ev) : Outcome :=
  if (extractTextFromFiles files).success = false ∨
     (extractTextFromFiles files).text = "" then
    catchBranch env (some env.newAnalysisId) [rec0 env uid] evs
      "Text extraction failed - no content extracted from files"
  else
    step6Generate env uid files evs

/-- Step 4: sequential downloads of the selected uploads; the first failing
download throws and aborts the run. -/
def step4Downloads (env : Env) (uid : Nat) : Outcome :=
  match downloadLoop env.download (selectUploads env.uploadsRows uid env.now) with
  | .error (msg, paths) =>
    catchBranch env (some env.newAnalysisId) [rec0 env uid]
      ([Ev.queryUser, Ev.queryUploads, Ev.insertAnalysis .processing] ++
       paths.map Ev.download) msg
  | .ok (files, paths) =>
    step5Extract env uid files
      ([Ev.queryUser, Ev.queryUploads, Ev.insertAnalysis .processing] ++
       paths.map Ev.download)

/-- The handler of `src/api/analyze.js`: method check, body check, user
lookup, windowed uploads query, AnalysisRecord insert (status processing),
then steps 4-11; any throw from steps 4-8 lands in the catch branch. -/
def runHandler (env : Env) : Outcome :=
  if env.isPost = false then ⟨.methodNotAllowed, [], []⟩
  else
    match env.userId with
    | none => ⟨.badRequest "Missing userId", [], []⟩
    | some uid =>
      match env.users.find? (fun u => u.id == uid) with
      | none => ⟨.notFound "User not found", [.queryUser], []⟩
      | some _user =>
        if env.uploadsQueryFails then
          ⟨.serverError "Failed to fetch uploads", [.queryUser, .queryUploads], []⟩
        else
          if (selectUploads env.uploadsRows uid env.now).isEmpty then
            ⟨.badRequest "No uploaded files found for this user",
             [.queryUser, .queryUploads], []⟩
          else
            if env.insertFails then
              ⟨.serverError "Failed to create analysis record",
               [.queryUser, .queryUploads, .insertAnalysis .processing], []⟩
            else
              step4Downloads env uid

/-- Does an event touch the object store or the model service? -/
def storeTouching : Ev → Bool
  | .download _ => true
  | .modelCall => true
  | .storageUpload _ => true
  | _ => false

/-- Scans a trace: true when no store-touching event occurs before the first
AnalysisRecord insert (vacuously true when neither occurs). -/
def insertBeforeStores : List Ev → Bool
  | [] => true
  | .insertAnalysis _ :: _ => true
  | e :: rest => if storeTouching e then false else insertBeforeStores rest

/-- Is the response the success payload? -/
def respSuccess : Resp → Bool
  | .ok .. => true
  | _ => false

/-- The response with its emailSent field erased. -/
def respMinusEmail : Resp → Resp
  | .ok aid url pt fp tok cost _ => .ok aid url pt fp tok cost false
  | r => r

/-- The emailSent field of a success response. -/
def respEmailSent : Resp → Option Bool
  | .ok _ _ _ _ _ _ sent => some sent
  | _ => none

/-- The download paths occurring in a trace, in order. -/
def downloadsOf (evs : List Ev) : List String :=
  evs.filterMap (fun e => match e with | Ev.download p => some p | _ => none)

/-- A concrete valid user. -/
def demoUser : User := ⟨1, "u@example.com", "solo"⟩

/-- A concrete upload inside the lookback window. -/
def demoUpload : Upload := ⟨10, 1, "a.txt", "up/a.txt", 5, 950000⟩

/-- A second upload, earlier but still inside the window. -/
def demoUpload2 : Upload := ⟨11, 1, "b.txt", "up/b.txt", 6, 900000⟩

/-- A fully successful environment except that the step-9 completed-update
fails (its error is logged and swallowed by the handler). -/
def envUpdateLost : Env :=
  { isPost := true
    userId := some 1
    now := 1000000
    elapsedMs := 2499
    users := [demoUser]
    uploadsRows := [demoUpload]
    uploadsQueryFails := false
    insertFails := false
    newAnalysisId := 77
    download := fun _ => .ok demoTxtBuffer
    modelCall := fun _ => .ok ⟨"report text", 12000, 14000⟩
    storagePut := .ok "https://store.example/reports/r.html"
    updateCompletedFails := true
    updateFailedFails := false
    reportEmailFails := false }

/-- The same environment with a working completed-update. -/
def envAllOk : Env :=
  { envUpdateLost with updateCompletedFails := false }

/-- An environment whose uploads query returns no rows in the window. -/
def envNoUploads : Env :=
  { envUpdateLost with uploadsRows := [{ demoUpload with uploadedAt := 100 }] }

/-- An environment with two uploads where the second download fails. -/
def envSecondDownloadFails : Env :=
  { envUpdateLost with
      uploadsRows := [demoUpload, demoUpload2]
      updateCompletedFails := false
      download := fun p => if p == "up/b.txt" then .ok demoTxtBuffer
                           else .error "HTTP 404 - Not Found" }

/-! ## Theorems -/

/-- The per-file loop processes every file independently: the successful
texts and the error entries are the two filterMap projections of the batch,
so one malformed file only contributes its own error entry. -/
theorem extractLoop_spec (files : List HFile) :
    (extractLoop files).1 = files.filterMap (fun f =>
        match extractTextFromFile f with
        | .ok t => some (f.filename, t)
        | .err _ => none) ∧
    (extractLoop files).2.2 = files.filterMap (fun f =>
        match extractTextFromFile f with
        | .ok _ => none
        | .err m => some ⟨f.filename, m⟩) := by
  induction files with
  | nil => exact ⟨rfl, rfl⟩
  | cons f rest ih =>
    cases h : extractTextFromFile f <;>
      simp [extractLoop, h, List.filterMap_cons, ih.1, ih.2]

/-- Every file lands either in the successes or in the errors. -/
theorem extractLoop_count (files : List HFile) :
    (extractLoop files).1.length + (extractLoop files).2.2.length = files.length := by
  induction files with
  | nil => rfl
  | cons f rest ih =>
    cases h : extractTextFromFile f <;> simp [extractLoop, h] <;> omega

/-- C5: extractTextFromFiles is a total function of the batch (it never
throws); each failing file contributes exactly its own (filename, error)
entry while the remaining files are still processed, and the success flag
is true exactly when at least one file extracted successfully. -/
theorem extract_never_aborts_batch (files : List HFile) :
    ((extractTextFromFiles files).success = true ↔
      ∃ f ∈ files, ∃ t, extractTextFromFile f = .ok t) ∧
    (extractTextFromFiles files).errors = files.filterMap (fun f =>
        match extractTextFromFile f with
        | .ok _ => none
        | .err m => some ⟨f.filename, m⟩) ∧
    (extractTextFromFiles files).totalFiles = files.length ∧
    (extractTextFromFiles files).successfulExtractions +
      (extractTextFromFiles files).errors.length = files.length := by
  obtain ⟨h1, h2⟩ := extractLoop_spec files
  refine ⟨?_, h2, rfl, extractLoop_count files⟩
  show decide (0 < (extractLoop files).1.length) = true ↔ _
  rw [decide_eq_true_eq, List.length_pos, Ne, h1, List.filterMap_eq_nil]
  push_neg
  constructor
  · rintro ⟨f, hf, hne⟩
    cases hex : extractTextFromFile f with
    | ok t => exact ⟨f, hf, t, hex⟩
    | err m => rw [hex] at hne; simp at hne
  · rintro ⟨f, hf, t, hex⟩
    refine ⟨f, hf, ?_⟩
    rw [hex]
    simp

/-- C8: a .pptx file whose structural (mammoth) extraction throws yields a
SUCCESS carrying the fixed placeholder text; in a batch it is counted as a
successful extraction and produces no error entry. -/
theorem pptx_degraded_success (f : HFile) (m : String)
    (he : jsToLower (extname f.filename) = ".pptx")
    (hm : f.buffer.mammothRaw = .error m) :
    extractTextFromFile f = .ok "[PPTX content - text extraction limited]" ∧
    (extractTextFromFiles [f]).success = true ∧
    (extractTextFromFiles [f]).errors = [] ∧
    (extractTextFromFiles [f]).successfulExtractions = 1 ∧
    (extractTextFromFiles [f]).text =
      fileMarker f.filename "[PPTX content - text extraction limited]" := by
  have h1 : extractTextFromFile f = .ok "[PPTX content - text extraction limited]" := by
    unfold extractTextFromFile
    rw [he]
    simp [extractFromPPTX, hm]
  refine ⟨h1, ?_, ?_, ?_, ?_⟩ <;>
    simp [extractTextFromFiles, extractLoop, h1, joinBlank]

/-- Witness for C8 at a concrete pptx file with a throwing mammoth oracle. -/
theorem pptx_degraded_success_witness :
    extractTextFromFile demoPptxFile = .ok "[PPTX content - text extraction limited]" ∧
    (extractTextFromFiles [demoPptxFile]).success = true ∧
    (extractTextFromFiles [demoPptxFile]).errors = [] ∧
    (extractTextFromFiles [demoPptxFile]).successfulExtractions = 1 ∧
    (extractTextFromFiles [demoPptxFile]).text =
      fileMarker demoPptxFile.filename "[PPTX content - text extraction limited]" :=
  pptx_degraded_success demoPptxFile "ENOENT something" (by decide) rfl

/-- The combined text is at least as long as its first file banner. -/
theorem joinBlank_head_le (s : String) (rest : List String) :
    s.length ≤ (joinBlank (s :: rest)).length := by
  cases rest with
  | nil => simp [joinBlank]
  | cons y ys =>
    simp [joinBlank, String.length_append]
    omega

/-- A file banner is never the empty string. -/
theorem fileMarker_length_pos (fn t : String) : 0 < (fileMarker fn t).length := by
  have h12 : ("\n\n=== FILE: " : String).length = 12 := by decide
  simp [fileMarker, String.length_append, h12]

/-- C10: when extractTextFromFiles reports success, the combined text is a
nonempty string (each included text sits behind a FILE banner), so the
orchestrator guard on a missing text can only fire together with the
guard on success. -/
theorem extract_success_text_nonempty (files : List HFile)
    (h : (extractTextFromFiles files).success = true) :
    (extractTextFromFiles files).text ≠ "" := by
  have hlen : 0 < (extractLoop files).1.length := by
    have h2 : decide (0 < (extractLoop files).1.length) = true := h
    exact of_decide_eq_true h2
  obtain ⟨p, ts, hts⟩ : ∃ p ts, (extractLoop files).1 = p :: ts := by
    cases hcc : (extractLoop files).1 with
    | nil => rw [hcc] at hlen; simp at hlen
    | cons p ts => exact ⟨p, ts, rfl⟩
  show joinBlank (((extractLoop files).1).map fun it => fileMarker it.1 it.2) ≠ ""
  rw [hts, List.map_cons]
  intro hcon
  have hle : (fileMarker p.1 p.2).length ≤
      (joinBlank (fileMarker p.1 p.2 :: ts.map fun it => fileMarker it.1 it.2)).length :=
    joinBlank_head_le _ _
  rw [hcon] at hle
  have hpos : 0 < (fileMarker p.1 p.2).length := fileMarker_length_pos p.1 p.2
  have hz : ("" : String).length = 0 := by decide
  omega

/-- Witness for C10 at a concrete one-file batch. -/
theorem extract_success_text_nonempty_witness :
    (extractTextFromFiles demoTxtBatch).success = true ∧
    (extractTextFromFiles demoTxtBatch).text ≠ "" :=
  ⟨by decide, extract_success_text_nonempty demoTxtBatch (by decide)⟩

/-- The whitespace collapse starts its output with a space when the input
head is whitespace, and with the input head otherwise. -/
theorem collapseWs_head (x : Char) (xs : List Char) :
    ∃ ys, collapseWs (x :: xs) = (if jsWs x then ' ' else x) :: ys := by
  induction xs generalizing x with
  | nil => exact ⟨[], by cases h : jsWs x <;> simp [collapseWs, h]⟩
  | cons d rest ih =>
    by_cases hx : jsWs x
    · by_cases hd : jsWs d
      · obtain ⟨ys, hys⟩ := ih d
        refine ⟨ys, ?_⟩
        rw [show collapseWs (x :: d :: rest) = collapseWs (d :: rest) by
              simp [collapseWs, hx, hd], hys]
        simp [hx, hd]
      · exact ⟨collapseWs (d :: rest), by simp [collapseWs, hx, hd]⟩
    · exact ⟨collapseWs (d :: rest), by simp [collapseWs, hx]⟩

/-- Every whitespace character surviving the collapse is a plain space. -/
theorem collapseWs_ws_space (l : List Char) :
    ∀ c ∈ collapseWs l, jsWs c = true → c = ' ' := by
  induction l with
  | nil => simp [collapseWs]
  | cons x xs ih =>
    cases xs with
    | nil =>
      intro c hc hw
      by_cases hx : jsWs x
      · simp [collapseWs, hx] at hc
        exact hc
      · simp [collapseWs, hx] at hc
        rw [hc] at hw
        exact absurd hw (by simp [hx])
    | cons d rest =>
      intro c hc hw
      by_cases hx : jsWs x
      · by_cases hd : jsWs d
        · rw [show collapseWs (x :: d :: rest) = collapseWs (d :: rest) by
                simp [collapseWs, hx, hd]] at hc
          exact ih c hc hw
        · rw [show collapseWs (x :: d :: rest) = ' ' :: collapseWs (d :: rest) by
                simp [collapseWs, hx, hd]] at hc
          rcases List.mem_cons.mp hc with h | h
          · exact h
          · exact ih c h hw
      · rw [show collapseWs (x :: d :: rest) = x :: collapseWs (d :: rest) by
              simp [collapseWs, hx]] at hc
        rcases List.mem_cons.mp hc with h | h
        · rw [h] at hw
          exact absurd hw (by simp [hx])
        · exact ih c h hw

/-- After the collapse, no two adjacent characters are both whitespace. -/
theorem collapseWs_chain (l : List Char) :
    List.Chain' (fun a b => ¬(jsWs a = true ∧ jsWs b = true)) (collapseWs l) := by
  induction l with
  | nil => simp [collapseWs]
  | cons x xs ih =>
    cases xs with
    | nil => cases h : jsWs x <;> simp [collapseWs, h]
    | cons d rest =>
      by_cases hx : jsWs x
      · by_cases hd : jsWs d
        · rw [show collapseWs (x :: d :: rest) = collapseWs (d :: rest) by
                simp [collapseWs, hx, hd]]
          exact ih
        · rw [show collapseWs (x :: d :: rest) = ' ' :: collapseWs (d :: rest) by
                simp [collapseWs, hx, hd]]
          obtain ⟨ys, hys⟩ := collapseWs_head d rest
          rw [hys]
          rw [hys] at ih
          refine List.chain'_cons.mpr ⟨?_, ih⟩
          simp [hd]
      · rw [show collapseWs (x :: d :: rest) = x :: collapseWs (d :: rest) by
              simp [collapseWs, hx]]
        obtain ⟨ys, hys⟩ := collapseWs_head d rest
        rw [hys]
        rw [hys] at ih
        refine List.chain'_cons.mpr ⟨?_, ih⟩
        simp [hx]

/-- The newline collapse is the identity on newline-free text. -/
theorem collapseBlank_id (l : List Char) (h : '\n' ∉ l) : collapseBlank l = l := by
  induction l with
  | nil => simp [collapseBlank]
  | cons c rest ih =>
    have hc : (c == '\n') = false := by
      simp only [beq_eq_false_iff_ne]
      intro hcc
      exact h (hcc ▸ List.mem_cons_self c rest)
    rw [collapseBlank]
    simp only [hc, Bool.false_eq_true, if_false]
    rw [ih (fun hm => h (List.mem_cons_of_mem c hm))]

/-- dropTrailing returns a front segment of its input. -/
theorem dropTrailing_eq_take (l : List Char) : ∃ n, dropTrailing l = l.take n := by
  induction l with
  | nil => exact ⟨0, rfl⟩
  | cons c rest ih =>
    obtain ⟨n, hn⟩ := ih
    cases h : (dropTrailing rest).isEmpty && jsWs c with
    | false =>
      refine ⟨n + 1, ?_⟩
      simp only [dropTrailing]
      rw [h]
      simp [hn]
    | true =>
      refine ⟨0, ?_⟩
      simp only [dropTrailing]
      rw [h]
      simp

/-- Chain' survives taking a front segment. -/
theorem chain'_take {R : Char → Char → Prop} (l : List Char) (n : Nat)
    (h : List.Chain' R l) : List.Chain' R (l.take n) := by
  have hsplit : l.take n ++ l.drop n = l := List.take_append_drop n l
  rw [← hsplit] at h
  exact h.left_of_append

/-- Chain' survives dropping a whitespace head run. -/
theorem chain'_dropWhile {R : Char → Char → Prop} (p : Char → Bool) (l : List Char)
    (h : List.Chain' R l) : List.Chain' R (l.dropWhile p) := by
  have hsplit : l.takeWhile p ++ l.dropWhile p = l := List.takeWhile_append_dropWhile p l
  rw [← hsplit] at h
  exact h.right_of_append

/-- Membership in a front segment implies membership. -/
theorem mem_of_mem_take {c : Char} {l : List Char} {n : Nat}
    (h : c ∈ l.take n) : c ∈ l :=
  List.take_subset n l h

/-- Membership after dropWhile implies membership. -/
theorem mem_of_mem_dropWhile {c : Char} {p : Char → Bool} {l : List Char}
    (h : c ∈ l.dropWhile p) : c ∈ l := by
  have hsplit : l.takeWhile p ++ l.dropWhile p = l := List.takeWhile_append_dropWhile p l
  rw [← hsplit]
  exact List.mem_append.mpr (Or.inr h)

/-- Characters of the cleaned text are characters of the collapse result. -/
theorem cleanupText_mem (s : String) {c : Char}
    (h : c ∈ (cleanupText s).toList) : c ∈ collapseWs s.toList ∨ '\n' ∈ collapseWs s.toList := by
  by_cases hnl : '\n' ∈ collapseWs s.toList
  · exact Or.inr hnl
  · left
    have : (cleanupText s).toList =
        dropTrailing ((collapseWs s.toList).dropWhile jsWs) := by
      show (jsTrim (String.mk (collapseBlank (collapseWs s.toList)))).toList = _
      rw [collapseBlank_id _ hnl]
      rfl
    rw [this] at h
    obtain ⟨n, hn⟩ := dropTrailing_eq_take ((collapseWs s.toList).dropWhile jsWs)
    rw [hn] at h
    exact mem_of_mem_dropWhile (mem_of_mem_take h)

/-- Whitespace in the cleaned text is a plain space. -/
theorem cleanupText_ws_space (s : String) :
    ∀ c ∈ (cleanupText s).toList, jsWs c = true → c = ' ' := by
  intro c hc hw
  rcases cleanupText_mem s hc with h | h
  · exact collapseWs_ws_space s.toList c h hw
  · exact absurd (collapseWs_ws_space s.toList '\n' h (by decide)) (by decide)

/-- The cleaned text contains no newline at all. -/
theorem cleanupText_no_nl (s : String) : '\n' ∉ (cleanupText s).toList := by
  intro h
  have := cleanupText_ws_space s '\n' h (by decide)
  exact absurd this (by decide)

/-- The cleaned text has no two adjacent whitespace characters. -/
theorem cleanupText_chain (s : String) : NoWsRun (cleanupText s) := by
  by_cases hnl : '\n' ∈ collapseWs s.toList
  · exact absurd (collapseWs_ws_space s.toList '\n' hnl (by decide)) (by decide)
  · show List.Chain' _ (cleanupText s).toList
    have : (cleanupText s).toList =
        dropTrailing ((collapseWs s.toList).dropWhile jsWs) := by
      show (jsTrim (String.mk (collapseBlank (collapseWs s.toList)))).toList = _
      rw [collapseBlank_id _ hnl]
      rfl
    rw [this]
    obtain ⟨n, hn⟩ := dropTrailing_eq_take ((collapseWs s.toList).dropWhile jsWs)
    rw [hn]
    exact chain'_take _ n (chain'_dropWhile jsWs _ (collapseWs_chain s.toList))

/-- Strip distributes over child-list concatenation. -/
theorem stripList_append (l1 l2 : List HNode) :
    stripList (l1 ++ l2) = stripList l1 ++ stripList l2 := by
  induction l1 with
  | nil => simp [stripList]
  | cons n ns ih =>
    cases n with
    | text s => simp [stripList, ih]
    | elem tag cs =>
      cases h : tag == "script" || tag == "style" <;> simp [stripList, h, ih]

/-- Strip of an element node cleans its child list. -/
theorem stripScriptStyle_elem (tag : String) (children : List HNode) :
    stripScriptStyle (.elem tag children) = .elem tag (stripList children) := by
  simp [stripScriptStyle]

/-- A script element at the head of a child list is dropped whole. -/
theorem stripList_script_cons (cs l : List HNode) :
    stripList (.elem "script" cs :: l) = stripList l := by
  simp [stripList]

/-- A style element at the head of a child list is dropped whole. -/
theorem stripList_style_cons (cs l : List HNode) :
    stripList (.elem "style" cs :: l) = stripList l := by
  simp [stripList]

/-- C7: the HTML extractor always succeeds with the cleaned text of the
DOM stripped of script and style elements; in the returned text every
whitespace run is collapsed to a single space (no two adjacent whitespace
characters, every whitespace character is a plain space), and no newline
remains at all — in particular no run of blank lines survives; removing a
script or style element anywhere in a child list does not change the
output. -/
theorem html_extraction_cleanup
    (buffer : FileBuffer) (root : HNode) (tag : String) (pre cs post : List HNode) :
    extractFromHTML buffer = .ok (htmlExtractText buffer.htmlDom) ∧
    NoWsRun (htmlExtractText root) ∧
    (∀ c ∈ (htmlExtractText root).toList, jsWs c = true → c = ' ') ∧
    '\n' ∉ (htmlExtractText root).toList ∧
    htmlExtractText (.elem tag (pre ++ .elem "script" cs :: post)) =
      htmlExtractText (.elem tag (pre ++ post)) ∧
    htmlExtractText (.elem tag (pre ++ .elem "style" cs :: post)) =
      htmlExtractText (.elem tag (pre ++ post)) := by
  refine ⟨rfl, cleanupText_chain _, cleanupText_ws_space _, cleanupText_no_nl _, ?_, ?_⟩
  · show cleanupText (textContent (stripScriptStyle (.elem tag (pre ++ .elem "script" cs :: post)))) =
        cleanupText (textContent (stripScriptStyle (.elem tag (pre ++ post))))
    rw [stripScriptStyle_elem, stripScriptStyle_elem, stripList_append,
        stripList_script_cons, ← stripList_append]
  · show cleanupText (textContent (stripScriptStyle (.elem tag (pre ++ .elem "style" cs :: post)))) =
        cleanupText (textContent (stripScriptStyle (.elem tag (pre ++ post))))
    rw [stripScriptStyle_elem, stripScriptStyle_elem, stripList_append,
        stripList_style_cons, ← stripList_append]

/-- Step lemma: a successful call ends the loop at once. -/
theorem genAttempts_ok (call : Nat → Except ApiError ApiOk) (a f : Nat) (r : ApiOk)
    (h : call a = .ok r) : genAttempts call a (f + 1) = ⟨mkSuccess r, 1, []⟩ := by
  unfold genAttempts
  rw [h]

/-- Step lemma: a retryable failure with attempts left sleeps and recurses. -/
theorem genAttempts_retry (call : Nat → Except ApiError ApiOk) (a f : Nat) (e : ApiError)
    (h : call a = .error e) (hr : isRetryableError e = true) (hf : f ≠ 0) :
    genAttempts call a (f + 1) =
      ⟨(genAttempts call (a + 1) f).result,
       (genAttempts call (a + 1) f).attemptsMade + 1,
       RETRY_DELAYS.getD a 0 :: (genAttempts call (a + 1) f).sleeps⟩ := by
  conv_lhs => unfold genAttempts; rw [h]
  simp [hr, hf]

/-- Step lemma: a non-retryable failure, or the last attempt failing,
ends the loop with the failure value. -/
theorem genAttempts_stop (call : Nat → Except ApiError ApiOk) (a f : Nat) (e : ApiError)
    (h : call a = .error e) (hs : isRetryableError e = false ∨ f = 0) :
    genAttempts call a (f + 1) = ⟨mkFailure e, 1, []⟩ := by
  conv_lhs => unfold genAttempts; rw [h]
  exact if_pos hs

/-- C3: two retryable failures then a success on attempt 3 return the
success result after sleeping 2000 ms then 5000 ms; a non-retryable error on
attempt 1 returns the failure result with no sleep and no further attempt. -/
theorem generate_retry_backoff_schedule
    (call call2 : Nat → Except ApiError ApiOk) (e0 e1 e : ApiError) (r : ApiOk)
    (h0 : call 0 = .error e0) (hr0 : isRetryableError e0 = true)
    (h1 : call 1 = .error e1) (hr1 : isRetryableError e1 = true)
    (h2 : call 2 = .ok r)
    (g0 : call2 0 = .error e) (gn : isRetryableError e = false) :
    generateNarrativeReport call = ⟨mkSuccess r, 3, [2000, 5000]⟩ ∧
    generateNarrativeReport call2 = ⟨mkFailure e, 1, []⟩ := by
  constructor
  · show genAttempts call 0 (2 + 1) = _
    rw [genAttempts_retry call 0 2 e0 h0 hr0 (by omega),
        show (2 : Nat) = 1 + 1 from rfl,
        genAttempts_retry call 1 1 e1 h1 hr1 (by omega),
        show (1 : Nat) = 0 + 1 from rfl,
        genAttempts_ok call 2 0 r h2]
    simp [RETRY_DELAYS]
  · show genAttempts call2 0 (2 + 1) = _
    exact genAttempts_stop call2 0 2 e g0 (Or.inl gn)

/-- Witness for C3 at the concrete oracles. -/
theorem generate_retry_backoff_schedule_witness :
    generateNarrativeReport callsRetryThenOk =
      ⟨mkSuccess ⟨"the report", 12000, 14000⟩, 3, [2000, 5000]⟩ ∧
    generateNarrativeReport callsAuthFail =
      ⟨mkFailure ⟨some 401, none, "invalid api key"⟩, 1, []⟩ :=
  generate_retry_backoff_schedule callsRetryThenOk callsAuthFail
    ⟨some 429, none, "rate limited"⟩ ⟨some 429, none, "rate limited"⟩
    ⟨some 401, none, "invalid api key"⟩ ⟨"the report", 12000, 14000⟩
    rfl rfl rfl rfl rfl rfl rfl

/-- C4: the generation success path and `estimateCost` use the same price
table (`tokenPrice`), with per-component arithmetic exactly
`tokens/1e6 * price`; `estimateCost` derives its input-token count as the
ceiling of `textLength / 4`, and usage (12000, 14000) prices to $0.246. -/
theorem cost_uses_shared_price_table
    (call : Nat → Except ApiError ApiOk) (r : ApiOk) (h : call 0 = .ok r)
    (textLength outTok : Nat) :
    (generateNarrativeReport call).result.costUSD =
      some ⟨(r.inputTokens : ℚ) / 1000000 * 3, (r.outputTokens : ℚ) / 1000000 * 15,
            tokenPrice r.inputTokens r.outputTokens⟩ ∧
    (estimateCost textLength outTok).estimatedCostUSD =
      tokenPrice ((estimateCost textLength outTok).estimatedInputTokens) outTok ∧
    ((estimateCost textLength outTok).estimatedInputTokens : ℤ) = ⌈(textLength : ℚ) / 4⌉ ∧
    tokenPrice 12000 14000 = 246 / 1000 := by
  refine ⟨?_, ?_, ?_, by norm_num [tokenPrice, INPUT_PER_MILLION, OUTPUT_PER_MILLION]⟩
  · show (genAttempts call 0 (2 + 1)).result.costUSD = _
    rw [genAttempts_ok call 0 2 r h]
    simp [mkSuccess, tokenPrice, INPUT_PER_MILLION, OUTPUT_PER_MILLION]
  · simp [estimateCost, tokenPrice, INPUT_PER_MILLION, OUTPUT_PER_MILLION]
  · show (((textLength + 3) / 4 : Nat) : ℤ) = ⌈(textLength : ℚ) / 4⌉
    have h2 : 4 * ((textLength + 3) / 4) ≤ textLength + 3 := by omega
    have h1 : textLength ≤ ((textLength + 3) / 4) * 4 := by omega
    rw [eq_comm, Int.ceil_eq_iff, Int.cast_natCast]
    constructor
    · rw [lt_div_iff₀ (by norm_num : (0 : ℚ) < 4)]
      have h2q : (4 : ℚ) * (((textLength + 3) / 4 : Nat) : ℚ) ≤ (textLength : ℚ) + 3 := by
        exact_mod_cast h2
      linarith
    · rw [div_le_iff₀ (by norm_num : (0 : ℚ) < 4)]
      exact_mod_cast h1

/-- Steps 4-11 end either in the catch branch over the fresh record or in
the success response whose final table depends only on whether the
completed-update succeeded, with the report-email attempt in the trace. -/
theorem step4_shape (env : Env) (uid : Nat) :
    (∃ evs msg, step4Downloads env uid =
       catchBranch env (some env.newAnalysisId) [rec0 env uid] evs msg) ∨
    (∃ url pt fp tok cost evs,
       step4Downloads env uid =
         ⟨.ok env.newAnalysisId url pt fp tok cost (!env.reportEmailFails), evs,
          if env.updateCompletedFails then [rec0 env uid]
          else [⟨env.newAnalysisId, uid, "full_report", .completed, true⟩]⟩ ∧
       Ev.reportEmail (!env.reportEmailFails) ∈ evs) := by
  unfold step4Downloads
  split
  · exact Or.inl ⟨_, _, rfl⟩
  unfold step5Extract
  split
  · exact Or.inl ⟨_, _, rfl⟩
  unfold step6Generate
  split
  · exact Or.inl ⟨_, _, rfl⟩
  unfold step8Store
  split
  · exact Or.inl ⟨_, _, rfl⟩
  next url hput =>
  have hdb : (if env.updateCompletedFails = true then [rec0 env uid]
      else [rec0 env uid].map (fun r =>
        if r.id = env.newAnalysisId then
          { r with status := .completed, sentToUser := true }
        else r)) =
      (if env.updateCompletedFails = true then [rec0 env uid]
       else [(⟨env.newAnalysisId, uid, "full_report", .completed, true⟩ : ARecord)]) := by
    cases hup : env.updateCompletedFails <;> simp [rec0]
  rw [hdb]
  exact Or.inr ⟨url, _, _, _, _, _, rfl, by simp⟩

/-- Every run ends in one of three shapes: an input-error response with no
record, the catch branch over the freshly inserted record, or the success
response whose final table depends only on whether the completed-update
succeeded. -/
theorem runHandler_shape (env : Env) :
    (runHandler env).analyses = [] ∨
    (∃ uid evs msg, env.userId = some uid ∧
       runHandler env = catchBranch env (some env.newAnalysisId) [rec0 env uid] evs msg) ∨
    (∃ uid url pt fp tok cost evs,
       env.userId = some uid ∧
       runHandler env =
         ⟨.ok env.newAnalysisId url pt fp tok cost (!env.reportEmailFails), evs,
          if env.updateCompletedFails then [rec0 env uid]
          else [⟨env.newAnalysisId, uid, "full_report", .completed, true⟩]⟩ ∧
       Ev.reportEmail (!env.reportEmailFails) ∈ evs) := by
  unfold runHandler
  split
  · exact Or.inl rfl
  split
  · exact Or.inl rfl
  next uid huid =>
  split
  · exact Or.inl rfl
  next user hfind =>
  split
  · exact Or.inl rfl
  split
  · exact Or.inl rfl
  split
  · exact Or.inl rfl
  rcases step4_shape env uid with ⟨evs, msg, h⟩ | ⟨url, pt, fp, tok, cost, evs, h, hm⟩
  · exact Or.inr (Or.inl ⟨uid, evs, msg, huid, h⟩)
  · exact Or.inr (Or.inr ⟨uid, url, pt, fp, tok, cost, evs, huid, h, hm⟩)

/-- C1 counterexample: a run in which everything succeeds except the step-9
completed-update leaves the AnalysisRecord with status processing after
the handler returns its success response. -/
theorem analysis_left_processing_counterexample :
    ((runHandler envUpdateLost).analyses.map ARecord.status) = [AStatus.processing] ∧
    respSuccess (runHandler envUpdateLost).resp = true := by
  decide

/-- C1 amended: provided the terminal record update itself succeeds (the
completed-update on the success path, the failed-update in the catch), no
run leaves a created AnalysisRecord in status processing: every record in
the final table is completed or failed. -/
theorem analysis_status_terminal_when_updates_ok (env : Env)
    (h1 : env.updateCompletedFails = false) (h2 : env.updateFailedFails = false) :
    (runHandler env).analyses.all
      (fun r => r.status == AStatus.completed || r.status == AStatus.failed) = true := by
  rcases runHandler_shape env with hA | ⟨uid, evs, msg, huid, hB⟩ |
    ⟨uid, url, pt, fp, tok, cost, evs, huid, hC, _⟩
  · rw [hA]
    rfl
  · rw [hB]
    simp [catchBranch, h2, rec0]
  · rw [hC]
    simp [h1]

/-- Witness for the amended C1 at a fully successful concrete run. -/
theorem analysis_status_terminal_when_updates_ok_witness :
    (runHandler envAllOk).analyses.all
      (fun r => r.status == AStatus.completed || r.status == AStatus.failed) = true :=
  analysis_status_terminal_when_updates_ok envAllOk rfl rfl

/-- The catch branch only appends events after the ones already traced. -/
theorem catchBranch_events_append (env : Env) (aid : Option Nat) (db : List ARecord)
    (evs : List Ev) (msg : String) :
    ∃ tail, (catchBranch env aid db evs msg).events = evs ++ tail :=
  ⟨_, List.append_assoc evs _ _⟩

/-- Steps 4-11 only append events after the query-query-insert events. -/
theorem step4_events_front (env : Env) (uid : Nat) :
    ∃ tail, (step4Downloads env uid).events =
      [Ev.queryUser, Ev.queryUploads, Ev.insertAnalysis .processing] ++ tail := by
  unfold step4Downloads
  split
  · obtain ⟨t, ht⟩ := catchBranch_events_append env (some env.newAnalysisId) [rec0 env uid] _ _
    rw [ht]
    simp only [List.append_assoc]
    exact ⟨_, rfl⟩
  unfold step5Extract
  split
  · obtain ⟨t, ht⟩ := catchBranch_events_append env (some env.newAnalysisId) [rec0 env uid] _ _
    rw [ht]
    simp only [List.append_assoc]
    exact ⟨_, rfl⟩
  unfold step6Generate
  split
  · obtain ⟨t, ht⟩ := catchBranch_events_append env (some env.newAnalysisId) [rec0 env uid] _ _
    rw [ht]
    simp only [List.append_assoc]
    exact ⟨_, rfl⟩
  unfold step8Store
  split
  · obtain ⟨t, ht⟩ := catchBranch_events_append env (some env.newAnalysisId) [rec0 env uid] _ _
    rw [ht]
    simp only [List.append_assoc]
    exact ⟨_, rfl⟩
  · simp only [List.append_assoc]
    exact ⟨_, rfl⟩

/-- C2: in a run with a valid user, at least one windowed upload, and a
working insert, the AnalysisRecord (status processing) is inserted and in
the trace no object-store download, model call, or report upload occurs
before that insert; in a run whose user is not found, or whose windowed
uploads query comes back empty, no AnalysisRecord is ever inserted, the
analyses table stays empty, and an error response is returned. -/
theorem analysis_record_created_first
    (env env2 : Env) (uid uid2 : Nat) (user : User)
    (hpost : env.isPost = true) (huid : env.userId = some uid)
    (hfind : env.users.find? (fun u => u.id == uid) = some user)
    (hq : env.uploadsQueryFails = false)
    (hne : (selectUploads env.uploadsRows uid env.now).isEmpty = false)
    (hins : env.insertFails = false)
    (g1 : env2.isPost = true) (g2 : env2.userId = some uid2)
    (gbad : env2.users.find? (fun u => u.id == uid2) = none ∨
            (env2.uploadsQueryFails = false ∧
             (selectUploads env2.uploadsRows uid2 env2.now).isEmpty = true)) :
    insertBeforeStores (runHandler env).events = true ∧
    Ev.insertAnalysis .processing ∈ (runHandler env).events ∧
    (∀ s, Ev.insertAnalysis s ∉ (runHandler env2).events) ∧
    (runHandler env2).analyses = [] ∧
    respSuccess (runHandler env2).resp = false := by
  have hrun : runHandler env = step4Downloads env uid := by
    simp [runHandler, hpost, huid, hfind, hq, hne, hins]
  obtain ⟨tail, htail⟩ := step4_events_front env uid
  have hpart2 :
      (∀ s, Ev.insertAnalysis s ∉ (runHandler env2).events) ∧
      (runHandler env2).analyses = [] ∧
      respSuccess (runHandler env2).resp = false := by
    rcases gbad with hf2 | ⟨gq, gempty⟩
    · have h2 : runHandler env2 = ⟨.notFound "User not found", [.queryUser], []⟩ := by
        simp [runHandler, g1, g2, hf2]
      rw [h2]
      refine ⟨?_, rfl, rfl⟩
      intro s
      simp
    · cases hf2 : env2.users.find? (fun u => u.id == uid2) with
      | none =>
        have h2 : runHandler env2 = ⟨.notFound "User not found", [.queryUser], []⟩ := by
          simp [runHandler, g1, g2, hf2]
        rw [h2]
        refine ⟨?_, rfl, rfl⟩
        intro s
        simp
      | some u2 =>
        have h2 : runHandler env2 =
            ⟨.badRequest "No uploaded files found for this user",
             [.queryUser, .queryUploads], []⟩ := by
          simp [runHandler, g1, g2, hf2, gq, gempty]
        rw [h2]
        refine ⟨?_, rfl, rfl⟩
        intro s
        simp
  refine ⟨?_, ?_, hpart2.1, hpart2.2.1, hpart2.2.2⟩
  · rw [hrun, htail]
    simp [insertBeforeStores, storeTouching]
  · rw [hrun, htail]
    simp

/-- Witness for C2: a valid concrete run and a concrete run whose uploads
window is empty. -/
theorem analysis_record_created_first_witness :
    insertBeforeStores (runHandler envAllOk).events = true ∧
    Ev.insertAnalysis .processing ∈ (runHandler envAllOk).events ∧
    Ev.insertAnalysis .processing ∉ (runHandler envNoUploads).events ∧
    (runHandler envNoUploads).analyses = [] ∧
    respSuccess (runHandler envNoUploads).resp = false := by
  have h := analysis_record_created_first envAllOk envNoUploads 1 1 demoUser
    rfl rfl rfl rfl (by decide) rfl rfl rfl (Or.inr ⟨rfl, by decide⟩)
  exact ⟨h.1, h.2.1, h.2.2.1 .processing, h.2.2.2.1, h.2.2.2.2⟩

/-- The download loop aborts at the first failing upload: with every earlier
download succeeding and upload u failing, it returns that failure message
and exactly the paths attempted up to and including u. -/
theorem downloadLoop_fails_at (dl : String → Except String FileBuffer)
    (pre : List Upload) (u : Upload) (rest : List Upload) (m : String)
    (hpre : ∀ v ∈ pre, ∃ b, dl v.filePath = .ok b)
    (hfail : dl u.filePath = .error m) :
    downloadLoop dl (pre ++ u :: rest) =
      .error ("Failed to download " ++ u.filename ++ ": " ++ m,
              pre.map (fun w => w.filePath) ++ [u.filePath]) := by
  induction pre with
  | nil =>
    simp [downloadLoop, hfail]
  | cons v pre ih =>
    obtain ⟨b, hb⟩ := hpre v (List.mem_cons_self v pre)
    have ih2 := ih (fun w hw => hpre w (List.mem_cons_of_mem v hw))
    simp [downloadLoop, hb, ih2]

/-- A fully successful download loop fetched exactly the upload paths, one
at a time, in list order. -/
theorem downloadLoop_ok_paths (dl : String → Except String FileBuffer)
    (us : List Upload) (files : List HFile) (paths : List String)
    (h : downloadLoop dl us = .ok (files, paths)) :
    paths = us.map (fun u => u.filePath) ∧
    files.map HFile.filename = us.map Upload.filename := by
  induction us generalizing files paths with
  | nil =>
    simp [downloadLoop] at h
    simp [h.1, h.2]
  | cons u rest ih =>
    unfold downloadLoop at h
    cases hd : dl u.filePath with
    | error m => rw [hd] at h; simp at h
    | ok b =>
      rw [hd] at h
      cases hrec : downloadLoop dl rest with
      | error p => rw [hrec] at h; simp at h
      | ok fp =>
        rw [hrec] at h
        simp at h
        obtain ⟨h1, h2⟩ := ih fp.1 fp.2 (by rw [hrec])
        rw [← h.1, ← h.2]
        simp [h1, h2]

/-- The download events of a mapped path list are exactly those paths. -/
theorem downloadsOf_map_download (paths : List String) :
    downloadsOf (paths.map Ev.download) = paths := by
  induction paths with
  | nil => rfl
  | cons p ps ih =>
    show downloadsOf (Ev.download p :: ps.map Ev.download) = p :: ps
    simp only [downloadsOf, List.filterMap_cons] at ih ⊢
    rw [ih]

/-- The uploads query selects exactly the uploads of this user inside the
ten-minute lookback window. -/
theorem selectUploads_mem (rows : List Upload) (uid now : Nat) (u : Upload) :
    u ∈ selectUploads rows uid now ↔
      (u ∈ rows ∧ u.userId = uid ∧ now - LOOKBACK_MS ≤ u.uploadedAt) := by
  unfold selectUploads
  rw [(List.perm_insertionSort _ _).mem_iff, List.mem_filter]
  simp [and_assoc]

/-- The uploads query orders by uploaded_at ascending. -/
theorem selectUploads_sorted (rows : List Upload) (uid now : Nat) :
    List.Sorted (fun a b : Upload => a.uploadedAt ≤ b.uploadedAt)
      (selectUploads rows uid now) := by
  haveI : IsTotal Upload (fun a b => a.uploadedAt ≤ b.uploadedAt) :=
    ⟨fun a b => Nat.le_total a.uploadedAt b.uploadedAt⟩
  haveI : IsTrans Upload (fun a b => a.uploadedAt ≤ b.uploadedAt) :=
    ⟨fun _ _ _ hab hbc => le_trans hab hbc⟩
  exact List.sorted_insertionSort _ _

/-- C6: with a valid user, the selected uploads are exactly the rows of the user
inside the ten-minute window, ordered by uploaded_at ascending; the loop
downloads them one at a time in that order and the first failing download
aborts the whole run: the record is updated to failed, the failure response
carries the download message, and only the paths up to the failure were
fetched. -/
theorem download_failure_aborts_run
    (env : Env) (uid : Nat) (user : User)
    (hpost : env.isPost = true) (huid : env.userId = some uid)
    (hfind : env.users.find? (fun u => u.id == uid) = some user)
    (hq : env.uploadsQueryFails = false)
    (hins : env.insertFails = false)
    (hupd : env.updateFailedFails = false)
    (msg : String) (paths : List String)
    (hdl : downloadLoop env.download (selectUploads env.uploadsRows uid env.now) =
             .error (msg, paths)) :
    (runHandler env).resp = .failed msg (some env.newAnalysisId) ∧
    (runHandler env).analyses =
      [⟨env.newAnalysisId, uid, "full_report", .failed, false⟩] ∧
    downloadsOf (runHandler env).events = paths ∧
    (∀ u, u ∈ selectUploads env.uploadsRows uid env.now ↔
       (u ∈ env.uploadsRows ∧ u.userId = uid ∧ env.now - LOOKBACK_MS ≤ u.uploadedAt)) ∧
    List.Sorted (fun a b : Upload => a.uploadedAt ≤ b.uploadedAt)
      (selectUploads env.uploadsRows uid env.now) ∧
    (∀ pre u rest m, selectUploads env.uploadsRows uid env.now = pre ++ u :: rest →
       (∀ v ∈ pre, ∃ b, env.download v.filePath = .ok b) →
       env.download u.filePath = .error m →
       downloadLoop env.download (selectUploads env.uploadsRows uid env.now) =
         .error ("Failed to download " ++ u.filename ++ ": " ++ m,
                 pre.map (fun w => w.filePath) ++ [u.filePath])) := by
  have hne : (selectUploads env.uploadsRows uid env.now).isEmpty = false := by
    cases hsel : selectUploads env.uploadsRows uid env.now with
    | nil => rw [hsel] at hdl; simp [downloadLoop] at hdl
    | cons a l => rfl
  have hrun : runHandler env = step4Downloads env uid := by
    simp [runHandler, hpost, huid, hfind, hq, hne, hins]
  have hstep : step4Downloads env uid =
      catchBranch env (some env.newAnalysisId) [rec0 env uid]
        ([Ev.queryUser, Ev.queryUploads, Ev.insertAnalysis .processing] ++
         paths.map Ev.download) msg := by
    unfold step4Downloads
    rw [hdl]
  refine ⟨?_, ?_, ?_, fun u => selectUploads_mem _ _ _ u,
          selectUploads_sorted _ _ _, ?_⟩
  · rw [hrun, hstep]
    rfl
  · rw [hrun, hstep]
    simp [catchBranch, hupd, rec0]
  · rw [hrun, hstep]
    have hmd := downloadsOf_map_download paths
    simp only [downloadsOf] at hmd
    simp [catchBranch, huid, hfind, downloadsOf, List.filterMap_append, hmd]
  · intro pre u rest m hsel hpre hfail
    rw [hsel]
    exact downloadLoop_fails_at env.download pre u rest m hpre hfail

/-- Witness for C6: two uploads in the window, second download fails. -/
theorem download_failure_aborts_run_witness :
    (runHandler envSecondDownloadFails).resp =
      .failed "Failed to download a.txt: HTTP 404 - Not Found" (some 77) ∧
    (runHandler envSecondDownloadFails).analyses =
      [⟨77, 1, "full_report", .failed, false⟩] ∧
    downloadsOf (runHandler envSecondDownloadFails).events = ["up/b.txt", "up/a.txt"] := by
  have h := download_failure_aborts_run envSecondDownloadFails 1 demoUser
    rfl rfl rfl rfl rfl rfl
    "Failed to download a.txt: HTTP 404 - Not Found" ["up/b.txt", "up/a.txt"] rfl
  exact ⟨h.1, h.2.1, h.2.2.1⟩

/-- C9: on a run that reaches the email stage, the email outcome changes
nothing but the emailSent field of the response: final analyses table and
every other response field agree between an email success and an email
failure; the emailSent field equals the email outcome, and the report-email
attempt is in the trace after the completed-update; moreover, in every run
whatsoever, a record with delivered (sent_to_user) true can only come from
the success response path, which always attempts the report email. -/
theorem email_failure_is_isolated
    (env : Env) (b1 b2 : Bool) (uid : Nat) (user : User)
    (hpost : env.isPost = true) (huid : env.userId = some uid)
    (hfind : env.users.find? (fun u => u.id == uid) = some user)
    (hq : env.uploadsQueryFails = false)
    (hne : (selectUploads env.uploadsRows uid env.now).isEmpty = false)
    (hins : env.insertFails = false)
    (files : List HFile) (paths : List String)
    (hdl : downloadLoop env.download (selectUploads env.uploadsRows uid env.now) =
             .ok (files, paths))
    (hex : (extractTextFromFiles files).success = true)
    (hext : (extractTextFromFiles files).text ≠ "")
    (hgen : (generateNarrativeReport env.modelCall).result.success = true)
    (url : String) (hput : env.storagePut = .ok url) :
    (runHandler { env with reportEmailFails := b1 }).analyses =
      (runHandler { env with reportEmailFails := b2 }).analyses ∧
    respMinusEmail (runHandler { env with reportEmailFails := b1 }).resp =
      respMinusEmail (runHandler { env with reportEmailFails := b2 }).resp ∧
    respSuccess (runHandler { env with reportEmailFails := b1 }).resp = true ∧
    respEmailSent (runHandler { env with reportEmailFails := b1 }).resp = some (!b1) ∧
    Ev.reportEmail (!b1) ∈ (runHandler { env with reportEmailFails := b1 }).events ∧
    (env.updateCompletedFails = false →
      (runHandler { env with reportEmailFails := b1 }).analyses =
        [⟨env.newAnalysisId, uid, "full_report", .completed, true⟩]) ∧
    (∀ (env2 : Env) (r : ARecord), r ∈ (runHandler env2).analyses →
       r.sentToUser = true →
       respSuccess (runHandler env2).resp = true ∧
       Ev.reportEmail (!env2.reportEmailFails) ∈ (runHandler env2).events) := by
  have key : ∀ b : Bool, runHandler { env with reportEmailFails := b } =
      ⟨.ok env.newAnalysisId url ((env.elapsedMs + 500) / 1000)
          (extractTextFromFiles files).successfulExtractions
          (((generateNarrativeReport env.modelCall).result.tokensUsed.map
             TokensUsed.total).getD 0)
          (((generateNarrativeReport env.modelCall).result.costUSD.map
             CostUSD.total).getD 0)
          (!b),
       [Ev.queryUser, Ev.queryUploads, Ev.insertAnalysis .processing] ++
       paths.map Ev.download ++
       List.replicate (generateNarrativeReport env.modelCall).attemptsMade Ev.modelCall ++
       [Ev.storageUpload (reportPathOf env uid), Ev.updateAnalysis .completed,
        Ev.reportEmail (!b)],
       if env.updateCompletedFails = true then [rec0 env uid]
       else [rec0 env uid].map (fun r =>
         if r.id = env.newAnalysisId then
           { r with status := .completed, sentToUser := true }
         else r)⟩ := by
    intro b
    simp [runHandler, step4Downloads, step5Extract, step6Generate, step8Store,
          reportPathOf, rec0,
          hpost, huid, hfind, hq, hne, hins, hdl, hex, hext, hgen, hput]
  have hdeliv : ∀ (env2 : Env) (r : ARecord), r ∈ (runHandler env2).analyses →
      r.sentToUser = true →
      respSuccess (runHandler env2).resp = true ∧
      Ev.reportEmail (!env2.reportEmailFails) ∈ (runHandler env2).events := by
    intro env2 r hr hsent
    rcases runHandler_shape env2 with hA | ⟨uid2, evs, msg, huid2, hB⟩ |
      ⟨uid2, url2, pt, fp, tok, cost, evs, huid2, hC, hm⟩
    · rw [hA] at hr
      simp at hr
    · rw [hB] at hr
      simp only [catchBranch] at hr
      by_cases hu : env2.updateFailedFails = true
      · simp [hu, rec0] at hr
        rw [hr] at hsent
        simp at hsent
      · simp [hu, rec0] at hr
        rw [hr] at hsent
        simp at hsent
    · rw [hC] at hr
      by_cases hu : env2.updateCompletedFails = true
      · simp [hu, rec0] at hr
        rw [hr] at hsent
        simp at hsent
      · simp [hu] at hr
        rw [hC]
        exact ⟨rfl, hm⟩
  refine ⟨?_, ?_, ?_, ?_, ?_, ?_, hdeliv⟩
  · rw [key b1, key b2]
  · rw [key b1, key b2]
    rfl
  · rw [key b1]
    rfl
  · rw [key b1]
    rfl
  · rw [key b1]
    simp
  · intro hup
    rw [key b1]
    simp [hup, rec0]

/-- Witness for C9: the all-success concrete run with the email failing
against the same run with the email succeeding. -/
theorem email_failure_is_isolated_witness :
    (runHandler { envAllOk with reportEmailFails := true }).analyses =
      (runHandler { envAllOk with reportEmailFails := false }).analyses ∧
    respMinusEmail (runHandler { envAllOk with reportEmailFails := true }).resp =
      respMinusEmail (runHandler { envAllOk with reportEmailFails := false }).resp ∧
    respSuccess (runHandler { envAllOk with reportEmailFails := true }).resp = true ∧
    respEmailSent (runHandler { envAllOk with reportEmailFails := true }).resp = some false ∧
    Ev.reportEmail false ∈ (runHandler { envAllOk with reportEmailFails := true }).events := by
  have h := email_failure_is_isolated envAllOk true false 1 demoUser
    rfl rfl rfl rfl (by decide) rfl
    [⟨"a.txt", demoTxtBuffer⟩] ["up/a.txt"] rfl rfl (by decide) rfl
    "https://store.example/reports/r.html" rfl
  exact ⟨h.1, h.2.1, h.2.2.1, h.2.2.2.1, h.2.2.2.2.1⟩

/-- Witness for C4 at a concrete oracle and text length. -/
theorem cost_uses_shared_price_table_witness :
    (generateNarrativeReport (fun _ => .ok ⟨"rep", 12000, 14000⟩)).result.costUSD =
      some ⟨(12000 : ℚ) / 1000000 * 3, (14000 : ℚ) / 1000000 * 15, tokenPrice 12000 14000⟩ ∧
    (estimateCost 103 16000).estimatedCostUSD =
      tokenPrice ((estimateCost 103 16000).estimatedInputTokens) 16000 ∧
    ((estimateCost 103 16000).estimatedInputTokens : ℤ) = ⌈(103 : ℚ) / 4⌉ ∧
    tokenPrice 12000 14000 = 246 / 1000 :=
  cost_uses_shared_price_table (fun _ => .ok ⟨"rep", 12000, 14000⟩)
    ⟨"rep", 12000, 14000⟩ rfl 103 16000

end NarrativeSparring
